import Mathlib

/-!
Verification of the admission-control and usage-metering subsystem of the
ai-graphql-main-agent gateway: the `ApiUsage` durable object (per-resource
usage meter reconciled against the remote Polar ledger), the fixed-window
rate limiter in `src/middleware/ratelimit.ts`, and the `UserSession`
identity cache.  Monetary quantities (`cost`, `remaining`) and timestamps
(milliseconds) are modelled as integers.
-/

namespace ApiUsage

/-- The value returned by `apiKeyManager.getKeyState` (the remote ledger). -/
structure KeyState where
  cost : ℤ
  lastVerifyTime : ℤ
  remaining : ℤ
  deriving Repr, DecidableEq

/-- The in-memory mutable fields of the `ApiUsage` durable object. -/
structure UsageState where
  cost : ℤ
  lastVerifyTime : ℤ
  remaining : ℤ
  deriving Repr, DecidableEq

/-- The persisted `ctx.storage` entries "cost", "lastVerifyTime", "remaining";
`none` models an absent key. -/
structure UsageStorage where
  cost : Option ℤ
  lastVerifyTime : Option ℤ
  remaining : Option ℤ
  deriving Repr, DecidableEq

/-- The observable effect of one `consumeApiUsage` call: the final in-memory
state, the final persisted state, the returned `{success, message}`, whether
`getKeyState` was called, and the amount (if any) reported via `ingestEvent`. -/
structure ConsumeOutcome where
  mem : UsageState
  stor : UsageStorage
  success : Bool
  message : String
  remoteCalled : Bool
  ingested : Option ℤ
  deriving Repr, DecidableEq

/-- Embedding of `ApiUsage.consumeApiUsage`.  `keyInfo` is the value the
remote ledger would return; it is consulted only on the remote-verify branch.
On the remote-verify accept path the source persists `cost = 0`, but the
assignment `this.cost = sumCost` placed after the if/else then overwrites the
in-memory field, so the final in-memory `cost` is `sumCost` while the
persisted `cost` is `0`. -/
def consumeApiUsage (mem : UsageState) (stor : UsageStorage) (cost : ℤ)
    (now : ℤ) (keyInfo : KeyState) : ConsumeOutcome :=
  let sumCost := mem.cost + cost
  if sumCost ≥ 100 ∨ now - mem.lastVerifyTime > 1000 * 60 * 5 then
    if keyInfo.remaining - sumCost < 0 then
      { mem := { mem with lastVerifyTime := keyInfo.lastVerifyTime },
        stor := { stor with lastVerifyTime := some keyInfo.lastVerifyTime },
        success := false, message := "Insufficient API Credits",
        remoteCalled := true, ingested := none }
    else
      { mem := { cost := sumCost, lastVerifyTime := keyInfo.lastVerifyTime,
                 remaining := keyInfo.remaining - sumCost },
        stor := { cost := some 0, lastVerifyTime := some keyInfo.lastVerifyTime,
                  remaining := some (keyInfo.remaining - sumCost) },
        success := true, message := "API Credits Consumed",
        remoteCalled := true, ingested := some sumCost }
  else
    if mem.remaining - sumCost < 0 then
      { mem := mem, stor := stor,
        success := false, message := "Insufficient API Credits",
        remoteCalled := false, ingested := none }
    else
      { mem := { mem with cost := sumCost },
        stor := { stor with cost := some sumCost },
        success := true, message := "API Credits Consumed",
        remoteCalled := false, ingested := none }

/-- Embedding of `ApiUsage.syncFromRemote`.  `ledger = none` models a thrown
`getKeyState` error, which the source catches and logs, leaving all state
unchanged. -/
def syncFromRemote (mem : UsageState) (stor : UsageStorage)
    (ledger : Option KeyState) : UsageState × UsageStorage :=
  match ledger with
  | none => (mem, stor)
  | some k =>
      ({ cost := k.cost, lastVerifyTime := k.lastVerifyTime, remaining := k.remaining },
       { cost := some k.cost, lastVerifyTime := some k.lastVerifyTime,
         remaining := some k.remaining })

/-- JavaScript falsiness of an optional number: absent (`undefined`) or `0`. -/
def falsyNum (o : Option ℤ) : Bool :=
  match o with
  | none => true
  | some x => x == 0

/-- JavaScript falsiness of an optional integer timestamp. -/
def falsyInt (o : Option ℤ) : Bool :=
  match o with
  | none => true
  | some x => x == 0

/-- Result of an `init` call on an uninitialized actor. -/
structure InitOutcome where
  mem : UsageState
  stor : UsageStorage
  syncCalled : Bool
  deriving Repr, DecidableEq

/-- Embedding of the `blockConcurrencyWhile` body of `ApiUsage.init` on an
uninitialized actor: the three storage keys are read and, because the source
tests them with `!cost || !lastVerifyTime || !remaining`, a stored value of
`0` is treated the same as an absent one and triggers `syncFromRemote`. -/
def init (mem : UsageState) (stor : UsageStorage) (ledger : Option KeyState) :
    InitOutcome :=
  if falsyNum stor.cost || falsyInt stor.lastVerifyTime || falsyNum stor.remaining then
    let p := syncFromRemote mem stor ledger
    { mem := p.1, stor := p.2, syncCalled := true }
  else
    { mem := { cost := stor.cost.getD 0, lastVerifyTime := stor.lastVerifyTime.getD 0,
               remaining := stor.remaining.getD 0 },
      stor := stor, syncCalled := false }

/-- One call to `consumeApiUsage` as seen by a single serialized actor: the
cost argument, the wall-clock time of the call, and the ledger state that
`getKeyState` would report if consulted. -/
structure StepInput where
  cost : ℤ
  now : ℤ
  keyInfo : KeyState
  deriving Repr, DecidableEq

/-- The actor's in-memory state together with two ghost observers: `accepted`
is the sum of the costs of the calls accepted since the last successful
reconciliation with the ledger, and `syncRemaining` is the remaining balance
the ledger reported at that reconciliation. -/
structure GhostState where
  mem : UsageState
  accepted : ℤ
  syncRemaining : ℤ
  deriving Repr, DecidableEq

/-- Mirror of the in-memory state as a storage snapshot (used only to supply
`consumeApiUsage` with a storage argument; the in-memory result does not
depend on it). -/
def mirrorStorage (mem : UsageState) : UsageStorage :=
  { cost := some mem.cost, lastVerifyTime := some mem.lastVerifyTime,
    remaining := some mem.remaining }

/-- One `consumeApiUsage` call together with the ghost bookkeeping: a remote
accept starts a new reconciliation epoch whose accepted sum is the cost of
the accepting call itself; a local accept adds its cost to the current epoch;
rejections change neither ghost field. -/
def ghostStep (g : GhostState) (i : StepInput) : GhostState :=
  let o := consumeApiUsage g.mem (mirrorStorage g.mem) i.cost i.now i.keyInfo
  { mem := o.mem,
    accepted :=
      if o.success then
        (if o.remoteCalled then i.cost else g.accepted + i.cost)
      else g.accepted,
    syncRemaining :=
      if o.success && o.remoteCalled then i.keyInfo.remaining else g.syncRemaining }

/-- Run a sequence of `consumeApiUsage` calls through one serialized actor. -/
def ghostRun (g : GhostState) : List StepInput → GhostState
  | [] => g
  | i :: is => ghostRun (ghostStep g i) is

/-- Inductive invariant of the usage actor: the accumulated cost field is
nonnegative, it dominates the ghost accepted sum, and both the in-memory
remaining balance and the accepted sum are bounded by the balance recorded at
the last reconciliation. -/
def UsageInv (g : GhostState) : Prop :=
  0 ≤ g.mem.cost ∧ g.accepted ≤ g.mem.cost ∧
    g.mem.remaining ≤ g.syncRemaining ∧ g.accepted ≤ g.syncRemaining

/-- Fold a list of costs through `consumeApiUsage` at a fixed time and ledger
state, returning the final in-memory state, the final storage, and the list
of per-call `success` flags. -/
def consumeMany (mem : UsageState) (stor : UsageStorage) (now : ℤ)
    (keyInfo : KeyState) : List ℤ → UsageState × UsageStorage × List Bool
  | [] => (mem, stor, [])
  | c :: cs =>
      let o := consumeApiUsage mem stor c now keyInfo
      let r := consumeMany o.mem o.stor now keyInfo cs
      (r.1, r.2.1, o.success :: r.2.2)

end ApiUsage

namespace RateLimit

/-- One rate-limit record, as stored per (client key, window). -/
structure RateLimitRecord where
  count : ℤ
  resetTime : ℤ
  firstHit : ℤ
  deriving Repr, DecidableEq

/-- The persisted envelope every store entry is wrapped in; `expires = none`
models the `null` never-expiring marker. -/
structure StorageValueWithTTL (T : Type) where
  value : T
  expires : Option ℤ
  deriving Repr, DecidableEq

/-- Embedding of `isExpired`: an absent envelope counts as expired; otherwise
the envelope is expired exactly when it has a non-null `expires` timestamp
strictly in the past.  `Date.now()` is passed explicitly as `now`. -/
def isExpired {T : Type} (storedData : Option (StorageValueWithTTL T))
    (now : ℤ) : Bool :=
  match storedData with
  | none => true
  | some s =>
      match s.expires with
      | none => false
      | some e => decide (now > e)

/-- Embedding of `createStorageValueWithTTL`: the source tests `ttl ?`, so an
absent ttl and a ttl of `0` both produce the never-expiring `expires: null`. -/
def createStorageValueWithTTL {T : Type} (value : T) (ttl : Option ℤ)
    (now : ℤ) : StorageValueWithTTL T :=
  match ttl with
  | none => { value := value, expires := none }
  | some t =>
      if t = 0 then { value := value, expires := none }
      else { value := value, expires := some (now + t) }

/-- The `MemoryStore`'s backing map, as an association list. -/
abbrev MemStore := List (String × StorageValueWithTTL RateLimitRecord)

/-- `Map.get` on the backing map. -/
def storeLookup : MemStore → String → Option (StorageValueWithTTL RateLimitRecord)
  | [], _ => none
  | (k, v) :: rest, key => if k = key then some v else storeLookup rest key

/-- `Map.delete` on the backing map. -/
def storeDelete : MemStore → String → MemStore
  | [], _ => []
  | (k, v) :: rest, key =>
      if k = key then storeDelete rest key else (k, v) :: storeDelete rest key

/-- `Map.set` on the backing map (replace in place or append). -/
def storeSet : MemStore → String → StorageValueWithTTL RateLimitRecord → MemStore
  | [], key, v => [(key, v)]
  | (k, w) :: rest, key, v =>
      if k = key then (key, v) :: rest else (k, w) :: storeSet rest key v

/-- Embedding of `MemoryStore.get`: returns the unwrapped record and the
store after the call; an expired envelope is deleted and reported absent. -/
def memGet (s : MemStore) (key : String) (now : ℤ) :
    Option RateLimitRecord × MemStore :=
  match storeLookup s key with
  | none => (none, s)
  | some sd =>
      if isExpired (some sd) now then (none, storeDelete s key)
      else (some sd.value, s)

/-- Embedding of `MemoryStore.set`. -/
def memSet (s : MemStore) (key : String) (record : RateLimitRecord)
    (ttl : Option ℤ) (now : ℤ) : MemStore :=
  storeSet s key (createStorageValueWithTTL record ttl now)

/-- Embedding of `MemoryStore.increment`: read through `get`, then either
start a fresh window with `count = 1` and ttl `windowMs`, or bump `count` in
place with ttl `max 0 (resetTime - now)`. -/
def memIncrement (s : MemStore) (key : String) (windowMs : ℤ) (now : ℤ) :
    RateLimitRecord × MemStore :=
  let g := memGet s key now
  match g.1 with
  | none =>
      let newRecord : RateLimitRecord :=
        { count := 1, resetTime := now + windowMs, firstHit := now }
      (newRecord, memSet g.2 key newRecord (some windowMs) now)
  | some existing =>
      if now - existing.firstHit ≥ windowMs then
        let newRecord : RateLimitRecord :=
          { count := 1, resetTime := now + windowMs, firstHit := now }
        (newRecord, memSet g.2 key newRecord (some windowMs) now)
      else
        let updated : RateLimitRecord := { existing with count := existing.count + 1 }
        (updated, memSet g.2 key updated (some (max 0 (existing.resetTime - now))) now)

/-- The result returned by `checkRateLimit`. -/
structure RateLimitResult where
  success : Bool
  limit : ℤ
  remaining : ℤ
  resetTime : ℤ
  retryAfter : Option ℤ
  key : String
  deriving Repr, DecidableEq

/-- The decision logic of `checkRateLimit` once the record has been read:
an absent or out-of-window record is replaced by a fresh `count = 0` record,
then `success = record.count < max`, `remaining = max 0 (max - count)`, and
`retryAfter = resetTime - now` only on denial. -/
def rateLimitDecision (record? : Option RateLimitRecord) (now windowMs maxReq : ℤ)
    (key : String) : RateLimitResult :=
  let record : RateLimitRecord :=
    match record? with
    | none => { count := 0, resetTime := now + windowMs, firstHit := now }
    | some r =>
        if now - r.firstHit ≥ windowMs then
          { count := 0, resetTime := now + windowMs, firstHit := now }
        else r
  let success := decide (record.count < maxReq)
  { success := success,
    limit := maxReq,
    remaining := max 0 (maxReq - record.count),
    resetTime := record.resetTime,
    retryAfter := if success then none else some (record.resetTime - now),
    key := key }

/-- Embedding of `checkRateLimit` with its surrounding `try/catch`: the key
generator and the store read are modelled as `Except`-valued; any error makes
the function return the fail-open `success = true` result built in the
`catch` block. -/
def checkRateLimit (keyRes : Except String String)
    (storeGet : String → Except String (Option RateLimitRecord))
    (now windowMs maxReq : ℤ) : RateLimitResult :=
  match keyRes with
  | Except.error _ =>
      { success := true, limit := maxReq, remaining := maxReq,
        resetTime := now + windowMs, retryAfter := none, key := "error" }
  | Except.ok key =>
      match storeGet key with
      | Except.error _ =>
          { success := true, limit := maxReq, remaining := maxReq,
            resetTime := now + windowMs, retryAfter := none, key := "error" }
      | Except.ok record? => rateLimitDecision record? now windowMs maxReq key

/-- `checkRateLimit` running against a `MemoryStore`: the store read is
`memGet`, whose possible deletion of an expired entry is the only way the
call can change the store. -/
def checkRateLimitMem (s : MemStore) (key : String) (now windowMs maxReq : ℤ) :
    RateLimitResult × MemStore :=
  let g := memGet s key now
  (rateLimitDecision g.1 now windowMs maxReq key, g.2)

end RateLimit

namespace UserSession

/-- In-memory fields of the `UserSession` durable object.  `lastSyncTime` is
optional because the source assigns the raw storage read to it: a missing
stored value leaves the field `undefined`, and `Date.now() - undefined > h`
is false in JavaScript. -/
structure SessionState where
  userId : String
  orgId : String
  apiKey : String
  isInitialized : Bool
  lastSyncTime : Option ℤ
  deriving Repr, DecidableEq

/-- The persisted storage keys "orgId", "userId", "lastSyncTime". -/
structure SessionStorage where
  orgId : Option String
  userId : Option String
  lastSyncTime : Option ℤ
  deriving Repr, DecidableEq

/-- Result of a `UserSession.init` call: final state, final storage, the
returned `{orgId, userId}` pair, and how many external identity lookups
(database queries) the call performed. -/
structure InitResult where
  state : SessionState
  stor : SessionStorage
  orgId : String
  userId : String
  dbLookups : ℕ
  deriving Repr, DecidableEq

/-- JavaScript truthiness of a string: nonempty. -/
def truthyStr (s : String) : Bool := s ≠ ""

/-- JavaScript truthiness of an optional string read from storage. -/
def truthyOptStr : Option String → Bool
  | none => false
  | some s => truthyStr s

/-- The staleness test `Date.now() - this.lastSyncTime > 1000 * 60 * 60`:
false when `lastSyncTime` is `undefined` (NaN comparisons are false). -/
def staleAfter (now : ℤ) (lastSync : Option ℤ) : Bool :=
  match lastSync with
  | none => false
  | some t => decide (now - t > 1000 * 60 * 60)

/-- Embedding of `UserSession.syncFromRemote`.  `db = none` models a thrown
or empty database query (the row is absent or the error is caught); with a
row `(user_id, org_id)`, the fields are updated and persisted only when both
are truthy. -/
def syncFromRemote (s : SessionState) (stor : SessionStorage) (now : ℤ)
    (db : Option (String × String)) : SessionState × SessionStorage :=
  match db with
  | none => (s, stor)
  | some (u, o) =>
      if truthyStr o && truthyStr u then
        ({ s with userId := u, orgId := o, lastSyncTime := some now },
         { orgId := some o, userId := some u, lastSyncTime := some now })
      else (s, stor)

/-- Embedding of `UserSession.init`.  If the instance is already initialized
for the same credential it returns the cached pair with no storage or
database access; otherwise it loads the persisted record, syncs from the
database when the record is absent or stale, and marks the instance
initialized when both ids are truthy. -/
def init (s : SessionState) (stor : SessionStorage) (apiKey : String)
    (now : ℤ) (db : Option (String × String)) : InitResult :=
  if s.isInitialized = true ∧ s.apiKey = apiKey then
    { state := s, stor := stor, orgId := s.orgId, userId := s.userId, dbLookups := 0 }
  else
    let s1 : SessionState := { s with apiKey := apiKey, lastSyncTime := stor.lastSyncTime }
    if ¬ truthyOptStr stor.orgId = true ∨ ¬ truthyOptStr stor.userId = true ∨
        staleAfter now stor.lastSyncTime = true then
      let p := syncFromRemote s1 stor now db
      let s3 : SessionState :=
        if truthyStr p.1.orgId && truthyStr p.1.userId then
          { p.1 with isInitialized := true }
        else p.1
      { state := s3, stor := p.2, orgId := s3.orgId, userId := s3.userId, dbLookups := 1 }
    else
      let s2 : SessionState :=
        { s1 with orgId := stor.orgId.getD "", userId := stor.userId.getD "" }
      let s3 : SessionState :=
        if truthyStr s2.orgId && truthyStr s2.userId then
          { s2 with isInitialized := true }
        else s2
      { state := s3, stor := stor, orgId := s3.orgId, userId := s3.userId, dbLookups := 0 }

end UserSession

namespace ApiUsage

theorem ghostStep_preserves_inv (g : GhostState) (i : StepInput)
    (hg : UsageInv g) (hc : 0 ≤ i.cost) : UsageInv (ghostStep g i) := by
  obtain ⟨h1, h2, h3, h4⟩ := hg
  by_cases hrv : g.mem.cost + i.cost ≥ 100 ∨ i.now - g.mem.lastVerifyTime > 1000 * 60 * 5
  · by_cases hrej : i.keyInfo.remaining - (g.mem.cost + i.cost) < 0
    · -- remote verify, rejected: only lastVerifyTime changes
      simp only [UsageInv, ghostStep, consumeApiUsage, hrv, hrej, if_true,
        Bool.false_and, Bool.false_eq_true, if_false]
      exact ⟨h1, h2, h3, h4⟩
    · -- remote verify, accepted: new reconciliation epoch
      push_neg at hrej
      simp only [UsageInv, ghostStep, consumeApiUsage, hrv, hrej.not_lt, if_true,
        Bool.and_self, if_false]
      refine ⟨by linarith, by linarith, by linarith, by linarith⟩
  · by_cases hloc : g.mem.remaining - (g.mem.cost + i.cost) < 0
    · -- local branch, rejected: nothing changes
      simp only [UsageInv, ghostStep, consumeApiUsage, hrv, hloc, if_true,
        Bool.false_and, Bool.false_eq_true, if_false]
      exact ⟨h1, h2, h3, h4⟩
    · -- local branch, accepted: cost accumulates under the remaining guard
      push_neg at hloc
      simp only [UsageInv, ghostStep, consumeApiUsage, hrv, hloc.not_lt, if_true,
        Bool.true_and, Bool.and_false, Bool.false_eq_true, if_false]
      refine ⟨by linarith, by linarith, by linarith, by linarith⟩

theorem ghostRun_preserves_inv (l : List StepInput) (g : GhostState)
    (hg : UsageInv g) (hl : ∀ i ∈ l, 0 ≤ i.cost) : UsageInv (ghostRun g l) := by
  induction l generalizing g with
  | nil => exact hg
  | cons i is ih =>
      exact ih (ghostStep g i)
        (ghostStep_preserves_inv g i hg (hl i (List.mem_cons_self i is)))
        (fun j hj => hl j (List.mem_cons_of_mem i hj))

/-- C1: the claim fails on the code, which contradicts its own persisted
state.  With accumulated cost 90, `consume(20)` at time 0 against a ledger
reporting remaining 200 takes the remote-verify branch and is accepted
(200 - 110 ≥ 0); the source persists `cost = 0`, `remaining = 90`, and the
ledger's `lastVerifyTime`, but the trailing `this.cost = sumCost` then leaves
the in-memory accumulated cost at 110, not 0, so the in-memory field and the
persisted field disagree. -/
theorem consume_remote_accept_cost_divergence :
    (consumeApiUsage ⟨90, 0, 10⟩ ⟨some 90, some 0, some 10⟩ 20 0 ⟨0, 7, 200⟩).success = true ∧
    (consumeApiUsage ⟨90, 0, 10⟩ ⟨some 90, some 0, some 10⟩ 20 0 ⟨0, 7, 200⟩).remoteCalled = true ∧
    (consumeApiUsage ⟨90, 0, 10⟩ ⟨some 90, some 0, some 10⟩ 20 0 ⟨0, 7, 200⟩).stor.cost = some 0 ∧
    (consumeApiUsage ⟨90, 0, 10⟩ ⟨some 90, some 0, some 10⟩ 20 0 ⟨0, 7, 200⟩).mem.cost = 110 ∧
    ¬ (consumeApiUsage ⟨90, 0, 10⟩ ⟨some 90, some 0, some 10⟩ 20 0 ⟨0, 7, 200⟩).mem.cost = 0 ∧
    (consumeApiUsage ⟨90, 0, 10⟩ ⟨some 90, some 0, some 10⟩ 20 0 ⟨0, 7, 200⟩).mem.remaining = 90 ∧
    (consumeApiUsage ⟨90, 0, 10⟩ ⟨some 90, some 0, some 10⟩ 20 0 ⟨0, 7, 200⟩).stor.remaining = some 90 ∧
    (consumeApiUsage ⟨90, 0, 10⟩ ⟨some 90, some 0, some 10⟩ 20 0 ⟨0, 7, 200⟩).mem.lastVerifyTime = 7 ∧
    (consumeApiUsage ⟨90, 0, 10⟩ ⟨some 90, some 0, some 10⟩ 20 0 ⟨0, 7, 200⟩).stor.lastVerifyTime = some 7 := by
  decide

/-- C2: starting from any state freshly hydrated by a successful
`syncFromRemote` (ledger cost and remaining nonnegative), along every
sequence of `consumeApiUsage` calls with nonnegative costs processed by one
serialized actor, the sum of the costs of the calls accepted since the last
successful reconciliation never exceeds the remaining balance the ledger
reported at that reconciliation. -/
theorem accepted_since_sync_bounded (m0 : UsageState) (s0 : UsageStorage)
    (k : KeyState) (l : List StepInput)
    (hkc : 0 ≤ k.cost) (hkr : 0 ≤ k.remaining)
    (hl : ∀ i ∈ l, 0 ≤ i.cost) :
    (ghostRun ⟨(syncFromRemote m0 s0 (some k)).1, 0, k.remaining⟩ l).accepted ≤
      (ghostRun ⟨(syncFromRemote m0 s0 (some k)).1, 0, k.remaining⟩ l).syncRemaining := by
  have hinv : UsageInv ⟨(syncFromRemote m0 s0 (some k)).1, 0, k.remaining⟩ := by
    refine ⟨?_, ?_, ?_, ?_⟩ <;> simp [syncFromRemote, UsageInv] <;> linarith
  exact (ghostRun_preserves_inv l _ hinv hl).2.2.2

theorem accepted_since_sync_bounded_witness :
    (ghostRun ⟨(syncFromRemote ⟨0, 0, 0⟩ ⟨none, none, none⟩ (some ⟨0, 0, 100⟩)).1, 0,
        (100 : ℤ)⟩ [⟨10, 1, ⟨0, 1, 0⟩⟩, ⟨200, 2, ⟨0, 2, 500⟩⟩, ⟨5, 3, ⟨0, 3, 0⟩⟩]).accepted ≤
      (ghostRun ⟨(syncFromRemote ⟨0, 0, 0⟩ ⟨none, none, none⟩ (some ⟨0, 0, 100⟩)).1, 0,
        (100 : ℤ)⟩ [⟨10, 1, ⟨0, 1, 0⟩⟩, ⟨200, 2, ⟨0, 2, 500⟩⟩, ⟨5, 3, ⟨0, 3, 0⟩⟩]).syncRemaining :=
  accepted_since_sync_bounded ⟨0, 0, 0⟩ ⟨none, none, none⟩ ⟨0, 0, 100⟩
    [⟨10, 1, ⟨0, 1, 0⟩⟩, ⟨200, 2, ⟨0, 2, 500⟩⟩, ⟨5, 3, ⟨0, 3, 0⟩⟩]
    (by norm_num) (by norm_num) (by decide)

/-- C4: on the non-remote-verify branch, a call with
`remaining - sumCost < 0` is rejected with the InsufficientCredits message
and leaves both the in-memory and the persisted state exactly unchanged; and
in the concrete instance starting from `remaining = 50`, five `consume(10)`
calls are accepted (accumulating cost 10..50) and a sixth `consume(10)` is
rejected leaving the state identical to the state after the fifth call. -/
theorem consume_local_reject_frame :
    (∀ (mem : UsageState) (stor : UsageStorage) (c : ℤ) (now : ℤ) (k : KeyState),
      ¬ (mem.cost + c ≥ 100 ∨ now - mem.lastVerifyTime > 1000 * 60 * 5) →
      mem.remaining - (mem.cost + c) < 0 →
      consumeApiUsage mem stor c now k =
        { mem := mem, stor := stor, success := false,
          message := "Insufficient API Credits", remoteCalled := false,
          ingested := none }) ∧
    ((consumeMany ⟨0, 0, 50⟩ ⟨some 0, some 1, some 50⟩ 0 ⟨0, 0, 0⟩
        [10, 10, 10, 10, 10]).2.2 = [true, true, true, true, true] ∧
     (consumeMany ⟨0, 0, 50⟩ ⟨some 0, some 1, some 50⟩ 0 ⟨0, 0, 0⟩
        [10, 10, 10, 10, 10]).1 = ⟨50, 0, 50⟩ ∧
     (consumeMany ⟨0, 0, 50⟩ ⟨some 0, some 1, some 50⟩ 0 ⟨0, 0, 0⟩
        [10, 10, 10, 10, 10, 10]).2.2 = [true, true, true, true, true, false] ∧
     (consumeMany ⟨0, 0, 50⟩ ⟨some 0, some 1, some 50⟩ 0 ⟨0, 0, 0⟩
        [10, 10, 10, 10, 10, 10]).1 =
       (consumeMany ⟨0, 0, 50⟩ ⟨some 0, some 1, some 50⟩ 0 ⟨0, 0, 0⟩
        [10, 10, 10, 10, 10]).1 ∧
     (consumeMany ⟨0, 0, 50⟩ ⟨some 0, some 1, some 50⟩ 0 ⟨0, 0, 0⟩
        [10, 10, 10, 10, 10, 10]).2.1 =
       (consumeMany ⟨0, 0, 50⟩ ⟨some 0, some 1, some 50⟩ 0 ⟨0, 0, 0⟩
        [10, 10, 10, 10, 10]).2.1) := by
  constructor
  · intro mem stor c now k hrv hloc
    simp only [consumeApiUsage]
    rw [if_neg hrv, if_pos hloc]
  · exact ⟨by decide, by decide, by decide, by decide, by decide⟩

theorem consume_local_reject_frame_witness :
    consumeApiUsage ⟨50, 0, 50⟩ ⟨some 50, some 0, some 50⟩ 10 0 ⟨0, 0, 0⟩ =
      { mem := ⟨50, 0, 50⟩, stor := ⟨some 50, some 0, some 50⟩, success := false,
        message := "Insufficient API Credits", remoteCalled := false,
        ingested := none } :=
  consume_local_reject_frame.1 ⟨50, 0, 50⟩ ⟨some 50, some 0, some 50⟩ 10 0 ⟨0, 0, 0⟩
    (by norm_num) (by norm_num)

/-- C5: `consumeApiUsage` contacts the remote ledger (calls `getKeyState`)
iff `sumCost ≥ 100` or more than 5 minutes (300000 ms) have passed since
`lastVerifyTime`; in particular a stale `lastVerifyTime` forces the remote
branch regardless of the cost. -/
theorem consume_remote_iff (mem : UsageState) (stor : UsageStorage) (c : ℤ)
    (now : ℤ) (k : KeyState) :
    ((consumeApiUsage mem stor c now k).remoteCalled = true ↔
      (mem.cost + c ≥ 100 ∨ now - mem.lastVerifyTime > 1000 * 60 * 5)) ∧
    (now - mem.lastVerifyTime > 1000 * 60 * 5 →
      (consumeApiUsage mem stor c now k).remoteCalled = true) := by
  have hiff : (consumeApiUsage mem stor c now k).remoteCalled = true ↔
      (mem.cost + c ≥ 100 ∨ now - mem.lastVerifyTime > 1000 * 60 * 5) := by
    by_cases hrv : mem.cost + c ≥ 100 ∨ now - mem.lastVerifyTime > 1000 * 60 * 5
    · by_cases hrej : k.remaining - (mem.cost + c) < 0
      · simp only [consumeApiUsage]
        rw [if_pos hrv, if_pos hrej]
        simpa using hrv
      · simp only [consumeApiUsage]
        rw [if_pos hrv, if_neg hrej]
        simpa using hrv
    · by_cases hloc : mem.remaining - (mem.cost + c) < 0
      · simp only [consumeApiUsage]
        rw [if_neg hrv, if_pos hloc]
        simpa using hrv
      · simp only [consumeApiUsage]
        rw [if_neg hrv, if_neg hloc]
        simpa using hrv
  exact ⟨hiff, fun h => hiff.mpr (Or.inr h)⟩

theorem consume_remote_iff_witness :
    (consumeApiUsage ⟨0, 0, 50⟩ ⟨none, none, none⟩ 1 400000 ⟨0, 0, 50⟩).remoteCalled = true :=
  (consume_remote_iff ⟨0, 0, 50⟩ ⟨none, none, none⟩ 1 400000 ⟨0, 0, 50⟩).2 (by norm_num)

/-- C8 counterexample: a storage state in which all three persisted values
are present (cost 0, lastVerifyTime 1000, remaining 50) nevertheless makes
`init` call `syncFromRemote` — the source tests the values with JavaScript
falsiness, so a present `cost = 0` is treated like an absent one, and the
actor is hydrated from the ledger (here ⟨1, 2, 3⟩) instead of from storage. -/
theorem init_syncs_despite_present_state :
    ((⟨some 0, some 1000, some 50⟩ : UsageStorage).cost.isSome = true) ∧
    ((⟨some 0, some 1000, some 50⟩ : UsageStorage).lastVerifyTime.isSome = true) ∧
    ((⟨some 0, some 1000, some 50⟩ : UsageStorage).remaining.isSome = true) ∧
    (init ⟨0, 0, 0⟩ ⟨some 0, some 1000, some 50⟩ (some ⟨1, 2, 3⟩)).syncCalled = true ∧
    (init ⟨0, 0, 0⟩ ⟨some 0, some 1000, some 50⟩ (some ⟨1, 2, 3⟩)).mem = ⟨1, 2, 3⟩ := by
  decide

/-- C8 amended: `init` performs `syncFromRemote` iff any of the persisted
cost, lastVerifyTime or remaining is absent or equal to 0 (JavaScript falsy);
whenever all three are present and nonzero, `init` loads them into the actor
without any remote ledger call and leaves storage untouched. -/
theorem init_sync_iff_falsy (mem : UsageState) (stor : UsageStorage)
    (ledger : Option KeyState) :
    ((init mem stor ledger).syncCalled = true ↔
      (stor.cost = none ∨ stor.cost = some 0 ∨ stor.lastVerifyTime = none ∨
       stor.lastVerifyTime = some 0 ∨ stor.remaining = none ∨
       stor.remaining = some 0)) ∧
    (∀ (c r : ℤ) (t : ℤ), stor.cost = some c → c ≠ 0 →
      stor.lastVerifyTime = some t → t ≠ 0 → stor.remaining = some r → r ≠ 0 →
      (init mem stor ledger).syncCalled = false ∧
      (init mem stor ledger).mem = ⟨c, t, r⟩ ∧
      (init mem stor ledger).stor = stor) := by
  have hsync : ∀ (m : UsageState) (st : UsageStorage) (lg : Option KeyState),
      (init m st lg).syncCalled =
        (falsyNum st.cost || falsyInt st.lastVerifyTime || falsyNum st.remaining) := by
    intro m st lg
    by_cases h :
        (falsyNum st.cost || falsyInt st.lastVerifyTime || falsyNum st.remaining) = true
    · simp [init, h]
    · simp [init, h]
  obtain ⟨oc, ot, orr⟩ := stor
  constructor
  · rw [hsync]
    cases oc <;> cases ot <;> cases orr <;>
      simp [falsyNum, falsyInt] <;> tauto
  · intro c r t hc hcne ht htne hr hrne
    simp only at hc ht hr
    subst hc; subst ht; subst hr
    simp [init, falsyNum, falsyInt, hcne, htne, hrne]

theorem init_sync_iff_falsy_witness :
    (init ⟨0, 0, 0⟩ ⟨some 2, some 5, some 50⟩ none).syncCalled = false ∧
    (init ⟨0, 0, 0⟩ ⟨some 2, some 5, some 50⟩ none).mem = ⟨2, 5, 50⟩ ∧
    (init ⟨0, 0, 0⟩ ⟨some 2, some 5, some 50⟩ none).stor = ⟨some 2, some 5, some 50⟩ :=
  (init_sync_iff_falsy ⟨0, 0, 0⟩ ⟨some 2, some 5, some 50⟩ none).2 2 50 5 rfl
    (by norm_num) rfl (by norm_num) rfl (by norm_num)

end ApiUsage

namespace RateLimit

/-- C3 counterexample: with `max = 1` and a live window record whose
pre-increment `count` is 1, the claim's formula `count ≤ max` holds (1 ≤ 1)
yet `checkRateLimit` denies the request, because the source computes
`success = record.count < max`, not `count <= max`. -/
theorem check_le_counterexample :
    (1 : ℤ) ≤ 1 ∧
    (rateLimitDecision (some ⟨1, 60000, 0⟩) 10 60000 1 "k").success = false := by
  decide

/-- C3 amended: `checkRateLimit` returns `success = true` iff the
pre-increment count of the current window (0 for an absent record or an
elapsed window) is strictly below `max` (equivalently, the post-increment
count is at most `max`); the claim's concrete scenario is as stated: with
`max = 1`, `windowMs = 60000`, a check at `t = 0` on an empty store is
allowed, the increment at `t = 0` stores `count = 1`, a second check at
`t = 10` is denied with `retryAfter = 59990`, and a check at `t = 61000`
falls into a fresh window and is allowed again. -/
theorem check_success_iff_lt (record? : Option RateLimitRecord)
    (now windowMs maxReq : ℤ) (key : String) :
    ((rateLimitDecision record? now windowMs maxReq key).success = true ↔
      (match record? with
       | none => (0 : ℤ)
       | some r => if now - r.firstHit ≥ windowMs then (0 : ℤ) else r.count) < maxReq) ∧
    ((checkRateLimitMem [] "k" 0 60000 1).1.success = true ∧
     (memIncrement [] "k" 60000 0).1 = ⟨1, 60000, 0⟩ ∧
     (checkRateLimitMem (memIncrement [] "k" 60000 0).2 "k" 10 60000 1).1.success = false ∧
     (checkRateLimitMem (memIncrement [] "k" 60000 0).2 "k" 10 60000 1).1.retryAfter =
       some 59990 ∧
     (checkRateLimitMem (memIncrement [] "k" 60000 0).2 "k" 61000 60000 1).1.success = true) := by
  constructor
  · cases record? with
    | none => simp [rateLimitDecision]
    | some r =>
        by_cases h : now - r.firstHit ≥ windowMs
        · simp [rateLimitDecision, h]
        · simp [rateLimitDecision, h]
  · exact ⟨by decide, by decide, by decide, by decide, by decide⟩

/-- C6: any key-generation or store-read error inside `checkRateLimit` is
caught and produces the fail-open `success = true` result rather than a
denial or a propagated error. -/
theorem check_fail_open (keyRes : Except String String)
    (storeGet : String → Except String (Option RateLimitRecord))
    (now windowMs maxReq : ℤ)
    (h : (∃ e, keyRes = Except.error e) ∨
         (∃ k e, keyRes = Except.ok k ∧ storeGet k = Except.error e)) :
    (checkRateLimit keyRes storeGet now windowMs maxReq).success = true := by
  rcases h with ⟨e, he⟩ | ⟨k, e, hk, hg⟩
  · subst he
    simp [checkRateLimit]
  · subst hk
    simp [checkRateLimit, hg]

theorem check_fail_open_witness :
    (checkRateLimit (Except.error "kv timeout") (fun _ => Except.ok none)
        0 60000 1).success = true :=
  check_fail_open (Except.error "kv timeout") (fun _ => Except.ok none) 0 60000 1
    (Or.inl ⟨"kv timeout", rfl⟩)

/-- C7 counterexample: `checkRateLimit` is not a pure read.  With a store
holding one envelope that expired at time 5, a check at time 10 returns a
store from which that entry has been deleted, so the store's contents after
the call differ from before. -/
theorem check_deletes_expired_entry :
    ([("k", ⟨⟨1, 60000, 0⟩, some 5⟩)] : MemStore) ≠ [] ∧
    (checkRateLimitMem [("k", ⟨⟨1, 60000, 0⟩, some 5⟩)] "k" 10 60000 1).2 = [] := by
  decide

/-- C7 amended: the only mutation `checkRateLimit` can make to the store is
deleting the checked key's expired envelope (which the read treats as
absent): for every store, key and time, the post-call store either equals
the pre-call store, or the checked key held an expired envelope and the
post-call store is the pre-call store with that key deleted; no entry is
ever created or updated. -/
theorem check_frame (s : MemStore) (key : String) (now windowMs maxReq : ℤ) :
    (checkRateLimitMem s key now windowMs maxReq).2 = s ∨
    (∃ sd, storeLookup s key = some sd ∧ isExpired (some sd) now = true ∧
      (checkRateLimitMem s key now windowMs maxReq).2 = storeDelete s key) := by
  cases hl : storeLookup s key with
  | none =>
      left
      simp [checkRateLimitMem, memGet, hl]
  | some sd =>
      by_cases he : isExpired (some sd) now = true
      · right
        refine ⟨sd, rfl, he, ?_⟩
        simp [checkRateLimitMem, memGet, hl, he]
      · left
        simp [checkRateLimitMem, memGet, hl, he]

/-- C10: a ttl of `0` (exactly what `increment` passes when
`max(0, resetTime - now)` clamps to 0) produces the never-expiring envelope:
`createStorageValueWithTTL v (some 0)` has `expires = none`, such an envelope
is never reported expired, `MemoryStore.get` keeps returning its value at
every later time, and an in-window increment at exactly `resetTime` stores a
never-expiring envelope rather than an immediately-expired one. -/
theorem ttl_zero_never_expires :
    (∀ (T : Type) (v : T) (now now2 : ℤ),
      (createStorageValueWithTTL v (some 0) now).expires = none ∧
      isExpired (some (createStorageValueWithTTL v (some 0) now)) now2 = false) ∧
    (∀ (r : RateLimitRecord) (key : String) (now now2 : ℤ),
      memGet [(key, createStorageValueWithTTL r (some 0) now)] key now2 =
        (some r, [(key, createStorageValueWithTTL r (some 0) now)])) ∧
    (storeLookup (memIncrement [("k", ⟨⟨1, 100, 50⟩, none⟩)] "k" 200 100).2 "k" =
      some ⟨⟨2, 100, 50⟩, none⟩) := by
  refine ⟨fun T v now now2 => ⟨rfl, rfl⟩, fun r key now now2 => ?_, by decide⟩
  simp [memGet, storeLookup, isExpired, createStorageValueWithTTL]

end RateLimit

namespace UserSession

/-- C9: on one `UserSession` instance, a first `init` with credential `k`
against empty storage and a database row with nonempty ids performs exactly
one external identity lookup and initializes the session; a second `init`
with the same credential while the record is fresh (within the one-hour
window) performs zero lookups, returns the cached `userId`/`orgId`, and
leaves the state and storage untouched — one lookup in total. -/
theorem session_single_lookup (k u o : String) (now1 now2 : ℤ)
    (db2 : Option (String × String)) (hu : u ≠ "") (ho : o ≠ "")
    (_hfresh : now2 - now1 ≤ 1000 * 60 * 60) :
    (let r1 := init ⟨"", "", "", false, some 0⟩ ⟨none, none, none⟩ k now1 (some (u, o));
     let r2 := init r1.state r1.stor k now2 db2;
     r1.dbLookups = 1 ∧ r1.userId = u ∧ r1.orgId = o ∧
     r1.state.isInitialized = true ∧
     r2.dbLookups = 0 ∧ r2.userId = u ∧ r2.orgId = o ∧
     r2.state = r1.state ∧ r2.stor = r1.stor) := by
  have h1 : init ⟨"", "", "", false, some 0⟩ ⟨none, none, none⟩ k now1 (some (u, o)) =
      { state := ⟨u, o, k, true, some now1⟩, stor := ⟨some o, some u, some now1⟩,
        orgId := o, userId := u, dbLookups := 1 } := by
    simp [init, syncFromRemote, truthyOptStr, truthyStr, staleAfter, hu, ho]
  have h2 : init ⟨u, o, k, true, some now1⟩ ⟨some o, some u, some now1⟩ k now2 db2 =
      { state := ⟨u, o, k, true, some now1⟩, stor := ⟨some o, some u, some now1⟩,
        orgId := o, userId := u, dbLookups := 0 } := by
    simp [init]
  dsimp only
  rw [h1, h2]
  simp

theorem session_single_lookup_witness :
    (let r1 := init ⟨"", "", "", false, some 0⟩ ⟨none, none, none⟩ "key1" 0 (some ("u1", "o1"));
     let r2 := init r1.state r1.stor "key1" 10 none;
     r1.dbLookups = 1 ∧ r1.userId = "u1" ∧ r1.orgId = "o1" ∧
     r1.state.isInitialized = true ∧
     r2.dbLookups = 0 ∧ r2.userId = "u1" ∧ r2.orgId = "o1" ∧
     r2.state = r1.state ∧ r2.stor = r1.stor) :=
  session_single_lookup "key1" "u1" "o1" 0 10 none (by decide) (by decide) (by decide)

end UserSession
